import Mathlib

/-
Verification of the API Gateway domain-name resource adapter and the
Route 53 helpers of this repository, as a shallow embedding in Lean 4.

Modelling conventions:
  * Go `*string` fields are `Option String` (`none` = nil pointer);
    `aws.StringValue` is `Option.getD ""`.
  * Go `*time.Time` values are modelled as their RFC3339 strings.
  * Remote API calls are parameters: a `Conn` record gives the response of
    each call site, so one run of a CRUD function is a function of the
    responses the remote would give.
  * `diag.Diagnostics` is a `List String` of error messages; an empty list
    is success.
-/

namespace ApiGateway

/-- Error returned by an AWS API call; `notFoundException` is the
`apigateway.ErrCodeNotFoundException` code, every other error is `other`. -/
inductive ApiError where
  | notFoundException
  | other (msg : String)
deriving DecidableEq, Repr

def ApiError.message : ApiError → String
  | .notFoundException => "NotFoundException"
  | .other msg => msg

/-- API object `apigateway.MutualTlsAuthentication`. -/
structure MutualTlsAuthentication where
  TruststoreUri : Option String
  TruststoreVersion : Option String
deriving DecidableEq, Repr

/-- API object `apigateway.MutualTlsAuthenticationInput`. -/
structure MutualTlsAuthenticationInput where
  TruststoreUri : Option String
  TruststoreVersion : Option String
deriving DecidableEq, Repr

/-- The Terraform-side `mutual_tls_authentication` block: a
`map[string]interface{}` with keys `truststore_uri` / `truststore_version`;
`none` in a field means the key is absent from the map. -/
structure MutualTLSMap where
  truststore_uri : Option String
  truststore_version : Option String
deriving DecidableEq, Repr

/-- API object `apigateway.EndpointConfiguration` (only the `Types` field is
used by this resource). -/
structure EndpointConfiguration where
  Types : List String
deriving DecidableEq, Repr

/-- The Terraform-side `endpoint_configuration` block. -/
structure EndpointConfigMap where
  types : List String
deriving DecidableEq, Repr

/-- API object `apigateway.DomainName` (the fields this adapter reads). -/
structure DomainName where
  DomainName : Option String
  DomainNameStatus : Option String
  DomainNameStatusMessage : Option String
  CertificateArn : Option String
  CertificateName : Option String
  CertificateUploadDate : Option String
  DistributionDomainName : Option String
  EndpointConfiguration : Option EndpointConfiguration
  MutualTlsAuthentication : Option MutualTlsAuthentication
  OwnershipVerificationCertificateArn : Option String
  RegionalCertificateArn : Option String
  RegionalCertificateName : Option String
  RegionalDomainName : Option String
  RegionalHostedZoneId : Option String
  SecurityPolicy : Option String
  Tags : List (String × String)
deriving DecidableEq, Repr

def DomainNameStatusUpdating : String := "UPDATING"
def DomainNameStatusAvailable : String := "AVAILABLE"
def OpReplace : String := "replace"

/-- Error returned by `FindDomainName`: a `retry.NotFoundError` wrapper, a
`tfresource.EmptyResultError`, or a passed-through API error. -/
inductive FindErr where
  | notFoundError (lastError : ApiError)
  | emptyResult
  | api (msg : String)
deriving DecidableEq, Repr

/-- Modelled from the spec: `tfresource.NotFound` (internal/tfresource, not
under src/) classifies errors as "not found"; a `retry.NotFoundError` is not
found, and a `tfresource.EmptyResultError` converts to one via its `As`
method, so both trigger the spec's "not found" handling. -/
def NotFound : FindErr → Bool
  | .notFoundError _ => true
  | .emptyResult => true
  | .api _ => false

/-- Modelled from the spec: error strings of the wrapper errors defined in
internal/tfresource and the plugin SDK (not under src/), used only when a
fatal error is surfaced verbatim to the operator. -/
def FindErr.message : FindErr → String
  | .notFoundError _ => "couldn't find resource"
  | .emptyResult => "empty result"
  | .api msg => msg

/-- `FindDomainName` (domain_name.go): wraps a NotFoundException into a
`retry.NotFoundError`, passes other errors through, and turns a nil output
into an `EmptyResultError`. The argument is the `GetDomainNameWithContext`
response: `.ok none` is a nil output with nil error. -/
def FindDomainName (get : Except ApiError (Option DomainName)) :
    Except FindErr DomainName :=
  match get with
  | .error .notFoundException => .error (.notFoundError .notFoundException)
  | .error (.other msg) => .error (.api msg)
  | .ok none => .error .emptyResult
  | .ok (some output) => .ok output

/-- Terraform state of one `aws_api_gateway_domain_name` resource: the id and
the attributes the adapter sets. -/
structure ResourceState where
  id : String
  arn : Option String
  certificate_arn : Option String
  certificate_name : Option String
  certificate_upload_date : Option String
  cloudfront_domain_name : Option String
  cloudfront_zone_id : Option String
  domain_name : Option String
  endpoint_configuration : List EndpointConfigMap
  mutual_tls_authentication : List (Option MutualTLSMap)
  ownership_verification_certificate_arn : Option String
  regional_certificate_arn : Option String
  regional_certificate_name : Option String
  regional_domain_name : Option String
  regional_zone_id : Option String
  security_policy : Option String
  tags : List (String × String)
deriving DecidableEq, Repr

/-- The provider metadata used by this adapter (`conns.AWSClient`). -/
structure AWSClient where
  Partition : String
  Region : String
  CloudFrontDistributionHostedZoneID : String
deriving DecidableEq, Repr

/-- Rendering of the `arn.ARN` literal built in `resourceDomainNameRead`
(service `apigateway`, empty account id, resource `/domainnames/<id>`). -/
def domainNameARN (meta : AWSClient) (id : String) : String :=
  "arn:" ++ meta.Partition ++ ":apigateway:" ++ meta.Region ++
    "::/domainnames/" ++ id

/-- `expandMutualTLSAuthentication` (domain_name.go): nil for an empty list
or nil first element; otherwise each field is set iff the map key holds a
non-empty string. -/
def expandMutualTLSAuthentication (tfList : List (Option MutualTLSMap)) :
    Option MutualTlsAuthenticationInput :=
  match tfList with
  | [] => none
  | none :: _ => none
  | some tfMap :: _ =>
    some
      { TruststoreUri :=
          match tfMap.truststore_uri with
          | some v => if v ≠ "" then some v else none
          | none => none
        TruststoreVersion :=
          match tfMap.truststore_version with
          | some v => if v ≠ "" then some v else none
          | none => none }

/-- `flattenMutualTLSAuthentication` (domain_name.go): Go returns nil for a
nil API object (modelled as the empty list, the observable shape at the
schema boundary) and otherwise a one-element list whose map holds a key per
non-nil field. -/
def flattenMutualTLSAuthentication (apiObject : Option MutualTlsAuthentication) :
    List (Option MutualTLSMap) :=
  match apiObject with
  | none => []
  | some apiObject =>
    [some { truststore_uri := apiObject.TruststoreUri
            truststore_version := apiObject.TruststoreVersion }]

/-- Modelled from the spec: `expandEndpointConfiguration` is defined
elsewhere in the apigateway package (not under src/); per the spec's
one-to-one attribute mirroring it maps the single schema block to the API
object. -/
def expandEndpointConfiguration (tfList : List EndpointConfigMap) :
    Option EndpointConfiguration :=
  match tfList with
  | [] => none
  | m :: _ => some { Types := m.types }

/-- Modelled from the spec: `flattenEndpointConfiguration` is defined
elsewhere in the apigateway package (not under src/); inverse direction of
the same one-to-one mirroring. -/
def flattenEndpointConfiguration (apiObject : Option EndpointConfiguration) :
    List EndpointConfigMap :=
  match apiObject with
  | none => []
  | some apiObject => [{ types := apiObject.Types }]

/-- `resourceDomainNameRead` (domain_name.go). `get` is the response of the
one `GetDomainNameWithContext` call. Returns the new state and the
diagnostics; a cleared id (`""`) is removal from state. -/
def resourceDomainNameRead (isNewResource : Bool) (meta : AWSClient)
    (get : Except ApiError (Option DomainName)) (st : ResourceState) :
    ResourceState × List String :=
  match FindDomainName get with
  | .error err =>
    if !isNewResource && NotFound err then
      ({ st with id := "" }, [])
    else
      (st, ["reading API Gateway Domain Name (" ++ st.id ++ "): " ++
            err.message])
  | .ok domainName =>
    ({ st with
        arn := some (domainNameARN meta st.id)
        certificate_arn := domainName.CertificateArn
        certificate_name := domainName.CertificateName
        certificate_upload_date := domainName.CertificateUploadDate
        cloudfront_domain_name := domainName.DistributionDomainName
        cloudfront_zone_id := some meta.CloudFrontDistributionHostedZoneID
        domain_name := domainName.DomainName
        endpoint_configuration :=
          flattenEndpointConfiguration domainName.EndpointConfiguration
        mutual_tls_authentication :=
          flattenMutualTLSAuthentication domainName.MutualTlsAuthentication
        ownership_verification_certificate_arn :=
          domainName.OwnershipVerificationCertificateArn
        regional_certificate_arn := domainName.RegionalCertificateArn
        regional_certificate_name := domainName.RegionalCertificateName
        regional_domain_name := domainName.RegionalDomainName
        regional_zone_id := domainName.RegionalHostedZoneId
        security_policy := domainName.SecurityPolicy
        tags := domainName.Tags }, [])

/-- A JSON-patch operation (`apigateway.PatchOperation`). -/
structure PatchOperation where
  Op : String
  Path : String
  Value : String
deriving DecidableEq, Repr

/-- Request object `apigateway.CreateDomainNameInput` (the fields this
adapter fills). -/
structure CreateDomainNameInput where
  DomainName : Option String
  MutualTlsAuthentication : Option MutualTlsAuthenticationInput
  Tags : List (String × String)
  CertificateArn : Option String
  CertificateBody : Option String
  CertificateChain : Option String
  CertificateName : Option String
  CertificatePrivateKey : Option String
  EndpointConfiguration : Option EndpointConfiguration
  OwnershipVerificationCertificateArn : Option String
  RegionalCertificateArn : Option String
  RegionalCertificateName : Option String
  SecurityPolicy : Option String
deriving DecidableEq, Repr

/-- The remote API as seen by one run of a CRUD function: the response each
call site would receive. -/
structure Conn where
  createDomainName : CreateDomainNameInput → Except ApiError DomainName
  getDomainName : String → Except ApiError (Option DomainName)
  updateDomainName : String → List PatchOperation → Except ApiError Unit
  deleteDomainName : String → Except ApiError Unit

/-- The configuration values `resourceDomainNameCreate` reads from the
`schema.ResourceData`; `d.Get` on an unset string yields `""` and on an
unset list yields `[]`, which is also what makes `d.GetOk` report false. -/
structure CreateData where
  domain_name : String
  certificate_arn : String
  certificate_body : String
  certificate_chain : String
  certificate_name : String
  certificate_private_key : String
  endpoint_configuration : List EndpointConfigMap
  mutual_tls_authentication : List (Option MutualTLSMap)
  ownership_verification_certificate_arn : String
  regional_certificate_arn : String
  regional_certificate_name : String
  security_policy : String
  tags : List (String × String)
deriving DecidableEq, Repr

/-- The `CreateDomainNameInput` built by `resourceDomainNameCreate`: each
`d.GetOk` guard sets the field only when the attribute is non-zero. -/
def resourceDomainNameCreateInput (d : CreateData) : CreateDomainNameInput :=
  { DomainName := some d.domain_name
    MutualTlsAuthentication :=
      expandMutualTLSAuthentication d.mutual_tls_authentication
    Tags := d.tags
    CertificateArn :=
      if d.certificate_arn ≠ "" then some d.certificate_arn else none
    CertificateBody :=
      if d.certificate_body ≠ "" then some d.certificate_body else none
    CertificateChain :=
      if d.certificate_chain ≠ "" then some d.certificate_chain else none
    CertificateName :=
      if d.certificate_name ≠ "" then some d.certificate_name else none
    CertificatePrivateKey :=
      if d.certificate_private_key ≠ "" then some d.certificate_private_key
      else none
    EndpointConfiguration :=
      if d.endpoint_configuration ≠ [] then
        expandEndpointConfiguration d.endpoint_configuration
      else none
    OwnershipVerificationCertificateArn :=
      if d.ownership_verification_certificate_arn ≠ "" then
        some d.ownership_verification_certificate_arn
      else none
    RegionalCertificateArn :=
      if d.regional_certificate_arn ≠ "" then some d.regional_certificate_arn
      else none
    RegionalCertificateName :=
      if d.regional_certificate_name ≠ "" then
        some d.regional_certificate_name
      else none
    SecurityPolicy :=
      if d.security_policy ≠ "" then some d.security_policy else none }

/-- `resourceDomainNameCreate` (domain_name.go): build the input, call
`CreateDomainNameWithContext`; on error return a diagnostic, otherwise set
the id from the response's `DomainName` and run the read (the read is on a
new resource, so `IsNewResource` is true there). -/
def resourceDomainNameCreate (d : CreateData) (meta : AWSClient)
    (conn : Conn) (st : ResourceState) : ResourceState × List String :=
  let domainName := d.domain_name
  match conn.createDomainName (resourceDomainNameCreateInput d) with
  | .error err =>
    (st, ["creating API Gateway Domain Name (" ++ domainName ++ "): " ++
          err.message])
  | .ok output =>
    let st1 := { st with id := output.DomainName.getD "" }
    resourceDomainNameRead true meta (conn.getDomainName st1.id) st1

/-- `resourceDomainNameDelete` (domain_name.go): a NotFoundException from
`DeleteDomainNameWithContext` is swallowed, any other error becomes a
diagnostic, success returns empty diagnostics. -/
def resourceDomainNameDelete (id : String) (conn : Conn) : List String :=
  match conn.deleteDomainName id with
  | .error .notFoundException => []
  | .error (.other msg) =>
    ["deleting API Gateway Domain Name (" ++ id ++ "): " ++
     (ApiError.other msg).message]
  | .ok _ => []

/-- Result of one `retry.StateRefreshFunc` call `(interface{}, string, error)`:
`retryEmpty` is `(nil, "", nil)`, `failed` is a non-nil error, `found` is a
non-nil result with its status string. -/
inductive RefreshResult where
  | retryEmpty
  | failed (msg : String)
  | found (output : DomainName) (status : String)
deriving DecidableEq, Repr

/-- `statusDomainName` (domain_name.go): a not-found lookup becomes
`(nil, "", nil)`, another error is surfaced, success yields the object and
`aws.StringValue(output.DomainNameStatus)`. -/
def statusDomainName (get : Except ApiError (Option DomainName)) :
    RefreshResult :=
  match FindDomainName get with
  | .error err =>
    if NotFound err then .retryEmpty else .failed err.message
  | .ok output => .found output (output.DomainNameStatus.getD "")

/-- The poller configuration `retry.StateChangeConf` (durations in seconds). -/
structure StateChangeConf where
  Pending : List String
  Target : List String
  Timeout : Nat
  Delay : Nat
  MinTimeout : Nat
deriving DecidableEq, Repr

/-- Outcome of `WaitForStateContext`; `fuelOut` is the out-of-fuel marker of
the embedding, proved unreachable for the fuel used. -/
inductive WaitOutcome where
  | found (output : DomainName)
  | timedOut
  | refreshErr (msg : String)
  | unexpectedState (status : String)
  | fuelOut
deriving DecidableEq, Repr

/-- Modelled from the spec: `retry.StateChangeConf.WaitForStateContext`
(plugin SDK, outside this repository) is the "bounded polling loop (fixed
delay, minimum timeout, maximum timeout) that blocks ... until the remote
resource reaches a target state or the timeout elapses"; an empty refresh
result is transient and retried until the timeout. The first wait is
`Delay`, later waits are `MinTimeout`; `elapsed` is the time already slept,
and no refresh happens once `Timeout` has elapsed. -/
def pollAux (conf : StateChangeConf) (refresh : Nat → RefreshResult) :
    Nat → Nat → Nat → WaitOutcome
  | 0, _, elapsed =>
    if conf.Timeout ≤ elapsed then .timedOut else .fuelOut
  | fuel + 1, k, elapsed =>
    if conf.Timeout ≤ elapsed then .timedOut
    else
      let wait := if k = 0 then conf.Delay else conf.MinTimeout
      match refresh k with
      | .retryEmpty => pollAux conf refresh fuel (k + 1) (elapsed + wait)
      | .failed msg => .refreshErr msg
      | .found output status =>
        if status ∈ conf.Target then .found output
        else if status ∈ conf.Pending then
          pollAux conf refresh fuel (k + 1) (elapsed + wait)
        else .unexpectedState status

/-- The `retry.StateChangeConf` literal of `waitDomainNameUpdated`
(domain_name.go): pending UPDATING, target AVAILABLE, timeout 15 min,
delay 1 min, min timeout 10 s. -/
def waitDomainNameUpdatedConf : StateChangeConf :=
  { Pending := [DomainNameStatusUpdating]
    Target := [DomainNameStatusAvailable]
    Timeout := 15 * 60
    Delay := 1 * 60
    MinTimeout := 10 }

/-- Fuel for the embedded poll loop; 100 iterations over-approximate the at
most `1 + (900 - 60) / 10` refreshes the 15-minute window admits. -/
def pollFuel : Nat := 100

/-- `waitDomainNameUpdated` (domain_name.go): run the poller with
`statusDomainName` as refresh function; `refreshSeq k` is the response of
the k-th `GetDomainNameWithContext` poll. -/
def waitDomainNameUpdated
    (refreshSeq : Nat → Except ApiError (Option DomainName)) : WaitOutcome :=
  pollAux waitDomainNameUpdatedConf (fun k => statusDomainName (refreshSeq k))
    pollFuel 0 0

/-- A refresh result that keeps the poller polling: the transient empty
result, or a found object whose status is still UPDATING. -/
def keepsPolling : RefreshResult → Bool
  | .retryEmpty => true
  | .failed _ => false
  | .found _ status => status == DomainNameStatusUpdating

def WaitOutcome.isErr : WaitOutcome → Bool
  | .found _ => false
  | _ => true

/-- Modelled from the spec: the error string the poller returns when it gives
up, surfaced verbatim by the update diagnostics. -/
def WaitOutcome.message : WaitOutcome → String
  | .found _ => ""
  | .timedOut => "timeout while waiting for state"
  | .refreshErr msg => msg
  | .unexpectedState status => "unexpected state " ++ status
  | .fuelOut => "fuel exhausted"

/-- The `schema.ResourceData` view `resourceDomainNameUpdate` uses: the set
of changed attribute keys (nested keys like `endpoint_configuration.0.types`
included) and the current values it reads with `d.Get` / `d.GetOk`. -/
structure UpdateData where
  id : String
  changedKeys : List String
  certificate_arn : String
  certificate_name : String
  endpoint_configuration : List EndpointConfigMap
  mutual_tls_authentication : List (Option MutualTLSMap)
  regional_certificate_arn : String
  regional_certificate_name : String
  security_policy : String
deriving DecidableEq, Repr

def UpdateData.HasChange (d : UpdateData) (key : String) : Bool :=
  d.changedKeys.contains key

def UpdateData.HasChangesExcept (d : UpdateData) (keys : List String) : Bool :=
  d.changedKeys.any (fun k => !(keys.contains k))

/-- The `operations` slice built by `resourceDomainNameUpdate`
(domain_name.go), one append per `d.HasChange` guard, in source order. -/
def resourceDomainNameUpdateOperations (d : UpdateData) :
    List PatchOperation :=
  (if d.HasChange "certificate_arn" then
    [{ Op := OpReplace, Path := "/certificateArn",
       Value := d.certificate_arn }]
   else []) ++
  (if d.HasChange "certificate_name" then
    [{ Op := OpReplace, Path := "/certificateName",
       Value := d.certificate_name }]
   else []) ++
  (if d.HasChange "endpoint_configuration.0.types" then
    -- The domain name must have an endpoint type; removing the block emits
    -- no operation.
    match d.endpoint_configuration with
    | [] => []
    | m :: _ =>
      [{ Op := OpReplace, Path := "/endpointConfiguration/types/0",
         Value := m.types.headD "" }]
   else []) ++
  (if d.HasChange "mutual_tls_authentication" then
    match d.mutual_tls_authentication with
    | some tfMap :: _ =>
      (if d.HasChange "mutual_tls_authentication.0.truststore_uri" then
        [{ Op := OpReplace, Path := "/mutualTlsAuthentication/truststoreUri",
           Value := tfMap.truststore_uri.getD "" }]
       else []) ++
      (if d.HasChange "mutual_tls_authentication.0.truststore_version" then
        [{ Op := OpReplace,
           Path := "/mutualTlsAuthentication/truststoreVersion",
           Value := tfMap.truststore_version.getD "" }]
       else [])
    | _ =>
      -- Disabling mutual TLS: remove the truststore from the domain name.
      [{ Op := OpReplace, Path := "/mutualTlsAuthentication/truststoreUri",
         Value := "" }]
   else []) ++
  (if d.HasChange "regional_certificate_arn" then
    [{ Op := OpReplace, Path := "/regionalCertificateArn",
       Value := d.regional_certificate_arn }]
   else []) ++
  (if d.HasChange "regional_certificate_name" then
    [{ Op := OpReplace, Path := "/regionalCertificateName",
       Value := d.regional_certificate_name }]
   else []) ++
  (if d.HasChange "security_policy" then
    [{ Op := OpReplace, Path := "/securityPolicy",
       Value := d.security_policy }]
   else [])

/-- Observable outcome of one `resourceDomainNameUpdate` run: the
`UpdateDomainNameWithContext` call made (if any) with its operations,
whether the update-wait loop was entered, and the resulting state and
diagnostics. -/
structure UpdateOutcome where
  updateCalled : Option (List PatchOperation)
  waited : Bool
  state : ResourceState
  diags : List String
deriving Repr

/-- `resourceDomainNameUpdate` (domain_name.go): skip the API entirely when
only `tags` / `tags_all` changed; otherwise patch, wait for the update, and
in every non-error path finish with the read. -/
def resourceDomainNameUpdate (d : UpdateData) (meta : AWSClient)
    (conn : Conn) (refreshSeq : Nat → Except ApiError (Option DomainName))
    (st : ResourceState) : UpdateOutcome :=
  if d.HasChangesExcept ["tags", "tags_all"] then
    let operations := resourceDomainNameUpdateOperations d
    match conn.updateDomainName d.id operations with
    | .error err =>
      { updateCalled := some operations, waited := false, state := st
        diags := ["updating API Gateway Domain Name (" ++ d.id ++ "): " ++
                  err.message] }
    | .ok _ =>
      let w := waitDomainNameUpdated refreshSeq
      if w.isErr then
        { updateCalled := some operations, waited := true, state := st
          diags := ["waiting for API Gateway Domain Name (" ++ d.id ++
                    ") update: " ++ w.message] }
      else
        let r := resourceDomainNameRead false meta (conn.getDomainName d.id) st
        { updateCalled := some operations, waited := true, state := r.1
          diags := r.2 }
  else
    let r := resourceDomainNameRead false meta (conn.getDomainName d.id) st
    { updateCalled := none, waited := false, state := r.1, diags := r.2 }

end ApiGateway

namespace route53

/-- One `route53.Change` as built by the test helper: an UPSERT of a CNAME
record set with TTL 30; `sdkacctest.RandInt()` is modelled by the loop
index, which keeps the generated names distinct just as randomness does. -/
structure Change where
  Action : String
  Name : String
  -- the record set's `Type` field; `Type` is a Lean keyword
  RecordType : String
  Value : String
  TTL : Nat
deriving DecidableEq, Repr

/-- `testAccCreateRandomRecordsInZoneID` (src/unnamed/part_000): rejects a
request of more than 100 record changes with an error; otherwise builds one
change per index and issues a single `ChangeResourceRecordSets` call whose
batch holds all of them. The `.ok` value lists the batches of the API calls
made, in order (always exactly one call here). -/
def testAccCreateRandomRecordsInZoneID (zoneName : String)
    (recordsCount : Nat) : Except String (List (List Change)) :=
  if recordsCount > 100 then
    .error "Route53 API only allows 100 record sets in a single batch"
  else
    .ok [(List.range recordsCount).map (fun i =>
      { Action := "UPSERT"
        Name := toString i ++ "-tf-acc-random." ++ zoneName
        RecordType := "CNAME"
        Value := "random." ++ zoneName
        TTL := 30 })]

/-- A Go `interface{}` value as exercised by `TestTrimTrailingPeriod`
(src/unnamed/part_000): a string, a `*string` (possibly nil), a non-string
value such as an int, or nil. -/
inductive GoValue where
  | str (s : String)
  | strPtr (p : Option String)
  | intVal (n : Int)
  | nilVal
deriving DecidableEq, Repr

/-- Modelled from the spec: `TrimTrailingPeriod` itself is not under src/,
only its test table `TestTrimTrailingPeriod` is; the model dereferences a
`*string` with `aws.StringValue`, returns `""` for any non-string input,
keeps `"."` as is, and otherwise strips one trailing period
(`strings.TrimSuffix` with suffix `"."`; since `'.'` is ASCII, having that
byte suffix is the same as the last character being `'.'`, which is how the
model tests it). The test-table theorem below checks the model against
every row of the table in src/. -/
def TrimTrailingPeriod (v : GoValue) : String :=
  let trim : String → String := fun str =>
    if str = "." then str
    else if str.data.getLast? = some '.' then String.mk str.data.dropLast
    else str
  match v with
  | .str s => trim s
  | .strPtr p => trim (p.getD "")
  | .intVal _ => ""
  | .nilVal => ""

end route53

namespace ApiGateway

/-- Sample provider metadata for concrete evaluations. -/
def sampleMeta : AWSClient :=
  { Partition := "aws", Region := "us-west-2"
    CloudFrontDistributionHostedZoneID := "Z2FDTNDATAQYW2" }

/-- Sample prior state for concrete evaluations. -/
def sampleState : ResourceState :=
  { id := "example.com", arn := none, certificate_arn := none
    certificate_name := none, certificate_upload_date := none
    cloudfront_domain_name := none, cloudfront_zone_id := none
    domain_name := none, endpoint_configuration := []
    mutual_tls_authentication := []
    ownership_verification_certificate_arn := none
    regional_certificate_arn := none, regional_certificate_name := none
    regional_domain_name := none, regional_zone_id := none
    security_policy := none, tags := [] }

/-- Sample remote domain name in status AVAILABLE. -/
def sampleDomainName : DomainName :=
  { DomainName := some "example.com"
    DomainNameStatus := some DomainNameStatusAvailable
    DomainNameStatusMessage := none
    CertificateArn := some "arn:aws:acm:us-west-2:1:certificate/abc"
    CertificateName := none, CertificateUploadDate := none
    DistributionDomainName := none
    EndpointConfiguration := some { Types := ["EDGE"] }
    MutualTlsAuthentication := none
    OwnershipVerificationCertificateArn := none
    RegionalCertificateArn := none, RegionalCertificateName := none
    RegionalDomainName := none, RegionalHostedZoneId := none
    SecurityPolicy := some "TLS_1_2", Tags := [] }

/-- Sample remote domain name in status UPDATING. -/
def updatingDomainName : DomainName :=
  { sampleDomainName with DomainNameStatus := some DomainNameStatusUpdating }

/-- Conn whose call sites answer with the given constants. -/
def connOf (create : Except ApiError DomainName)
    (get : Except ApiError (Option DomainName))
    (upd : Except ApiError Unit) (del : Except ApiError Unit) : Conn :=
  { createDomainName := fun _ => create
    getDomainName := fun _ => get
    updateDomainName := fun _ _ => upd
    deleteDomainName := fun _ => del }

/-- Sample configuration for a concrete create. -/
def sampleCreateData : CreateData :=
  { domain_name := "example.com", certificate_arn := ""
    certificate_body := "", certificate_chain := ""
    certificate_name := "", certificate_private_key := ""
    endpoint_configuration := [], mutual_tls_authentication := []
    ownership_verification_certificate_arn := ""
    regional_certificate_arn := "", regional_certificate_name := ""
    security_policy := "", tags := [] }

/-- Conn of a create that fails at the CreateDomainName call. -/
def createErrConn : Conn :=
  connOf (.error (.other "limit exceeded")) (.ok none) (.ok ()) (.ok ())

/-- Conn of a create that succeeds and whose read-back finds the resource. -/
def createOkConn : Conn :=
  connOf (.ok sampleDomainName) (.ok (some sampleDomainName)) (.ok ())
    (.ok ())

/-- Update data where only the tag attributes changed. -/
def dTagsOnly : UpdateData :=
  { id := "example.com", changedKeys := ["tags", "tags_all"]
    certificate_arn := "", certificate_name := ""
    endpoint_configuration := [], mutual_tls_authentication := []
    regional_certificate_arn := "", regional_certificate_name := ""
    security_policy := "" }

/-- Update data where the certificate ARN and the security policy changed. -/
def dCertSec : UpdateData :=
  { id := "example.com"
    changedKeys := ["certificate_arn", "security_policy"]
    certificate_arn := "arn:aws:acm:us-west-2:1:certificate/new"
    certificate_name := ""
    endpoint_configuration := [], mutual_tls_authentication := []
    regional_certificate_arn := "", regional_certificate_name := ""
    security_policy := "TLS_1_2" }

/-- C1: on a read of a resource that is not newly created, a not-found
lookup clears the resource id and returns no diagnostics; every other
lookup error leaves the state (so the id) unchanged and returns the one
diagnostic naming the read operation and the resource identifier. -/
theorem resourceDomainNameRead_errorHandling_spec :
    ∀ (meta : AWSClient) (st : ResourceState)
      (get : Except ApiError (Option DomainName)) (e : FindErr),
      FindDomainName get = .error e →
      (NotFound e = true →
        (resourceDomainNameRead false meta get st).1.id = "" ∧
        (resourceDomainNameRead false meta get st).2 = []) ∧
      (NotFound e = false →
        (resourceDomainNameRead false meta get st).1 = st ∧
        (resourceDomainNameRead false meta get st).2 =
          ["reading API Gateway Domain Name (" ++ st.id ++ "): " ++
           e.message]) := by
  intro meta st get e hfind
  constructor <;> intro hnf <;>
    simp [resourceDomainNameRead, hfind, hnf]

/-- Witness for C1: concrete evaluations of both error branches. -/
theorem resourceDomainNameRead_errorHandling_witness :
    ((resourceDomainNameRead false sampleMeta
        (Except.error ApiError.notFoundException) sampleState).1.id = "" ∧
     (resourceDomainNameRead false sampleMeta
        (Except.error ApiError.notFoundException) sampleState).2 = []) ∧
    ((resourceDomainNameRead false sampleMeta
        (Except.error (ApiError.other "throttled")) sampleState).1 =
          sampleState ∧
     (resourceDomainNameRead false sampleMeta
        (Except.error (ApiError.other "throttled")) sampleState).2 =
          ["reading API Gateway Domain Name (" ++ sampleState.id ++ "): " ++
           (FindErr.api "throttled").message]) :=
  ⟨(resourceDomainNameRead_errorHandling_spec sampleMeta sampleState
      (Except.error ApiError.notFoundException)
      (FindErr.notFoundError ApiError.notFoundException) rfl).1 rfl,
   (resourceDomainNameRead_errorHandling_spec sampleMeta sampleState
      (Except.error (ApiError.other "throttled"))
      (FindErr.api "throttled") rfl).2 rfl⟩

/-- C2: delete swallows a NotFoundException from the DeleteDomainName call,
turns every other API error into the one diagnostic naming the delete
operation and the resource identifier, and returns no diagnostics on
success. -/
theorem resourceDomainNameDelete_spec :
    ∀ (id : String) (conn : Conn),
      (conn.deleteDomainName id = .error .notFoundException →
        resourceDomainNameDelete id conn = []) ∧
      (∀ msg, conn.deleteDomainName id = .error (.other msg) →
        resourceDomainNameDelete id conn =
          ["deleting API Gateway Domain Name (" ++ id ++ "): " ++ msg]) ∧
      (conn.deleteDomainName id = .ok () →
        resourceDomainNameDelete id conn = []) := by
  intro id conn
  refine ⟨fun h => ?_, fun msg h => ?_, fun h => ?_⟩ <;>
    simp [resourceDomainNameDelete, h, ApiError.message]

/-- Witness for C2: concrete evaluations of the three delete outcomes. -/
theorem resourceDomainNameDelete_witness :
    resourceDomainNameDelete "example.com"
      (connOf (.error (.other "x")) (.ok none) (.ok ())
        (.error .notFoundException)) = [] ∧
    resourceDomainNameDelete "example.com"
      (connOf (.error (.other "x")) (.ok none) (.ok ())
        (.error (.other "access denied"))) =
      ["deleting API Gateway Domain Name (example.com): access denied"] ∧
    resourceDomainNameDelete "example.com"
      (connOf (.error (.other "x")) (.ok none) (.ok ()) (.ok ())) = [] :=
  ⟨(resourceDomainNameDelete_spec "example.com"
      (connOf (.error (.other "x")) (.ok none) (.ok ())
        (.error .notFoundException))).1 rfl,
   (resourceDomainNameDelete_spec "example.com"
      (connOf (.error (.other "x")) (.ok none) (.ok ())
        (.error (.other "access denied")))).2.1 "access denied" rfl,
   (resourceDomainNameDelete_spec "example.com"
      (connOf (.error (.other "x")) (.ok none) (.ok ())
        (.ok ()))).2.2 rfl⟩

/-- C5: the status refresh maps a not-found lookup to the empty result with
no error — which the poller treats as one more transient retry step — maps
every other lookup error to a failed refresh surfacing that error, and
otherwise returns the object with its DomainNameStatus string. -/
theorem statusDomainName_spec :
    ∀ (get : Except ApiError (Option DomainName)),
      (∀ e, FindDomainName get = .error e → NotFound e = true →
        statusDomainName get = .retryEmpty) ∧
      (∀ e, FindDomainName get = .error e → NotFound e = false →
        statusDomainName get = .failed e.message) ∧
      (∀ output, FindDomainName get = .ok output →
        statusDomainName get =
          .found output (output.DomainNameStatus.getD "")) ∧
      (∀ (refresh : Nat → RefreshResult) fuel k elapsed,
        refresh k = RefreshResult.retryEmpty →
        elapsed < waitDomainNameUpdatedConf.Timeout →
        pollAux waitDomainNameUpdatedConf refresh (fuel + 1) k elapsed =
          pollAux waitDomainNameUpdatedConf refresh fuel (k + 1)
            (elapsed + (if k = 0 then waitDomainNameUpdatedConf.Delay
                        else waitDomainNameUpdatedConf.MinTimeout))) := by
  intro get
  refine ⟨fun e he hnf => ?_, fun e he hnf => ?_, fun output ho => ?_,
    fun refresh fuel k elapsed hr ht => ?_⟩
  · simp [statusDomainName, he, hnf]
  · simp [statusDomainName, he, hnf]
  · simp [statusDomainName, ho]
  · have ht' : ¬ waitDomainNameUpdatedConf.Timeout ≤ elapsed := by omega
    simp [pollAux, hr, ht']

/-- Witness for C5: concrete evaluations of each refresh outcome and one
transient retry step of the poller. -/
theorem statusDomainName_witness :
    statusDomainName (Except.error ApiError.notFoundException) =
      RefreshResult.retryEmpty ∧
    statusDomainName (Except.error (ApiError.other "throttled")) =
      RefreshResult.failed (FindErr.api "throttled").message ∧
    statusDomainName (Except.ok (some sampleDomainName)) =
      RefreshResult.found sampleDomainName
        (sampleDomainName.DomainNameStatus.getD "") ∧
    pollAux waitDomainNameUpdatedConf (fun _ => RefreshResult.retryEmpty)
        (pollFuel + 1) 0 0 =
      pollAux waitDomainNameUpdatedConf (fun _ => RefreshResult.retryEmpty)
        pollFuel 1
        (0 + (if (0 : Nat) = 0 then waitDomainNameUpdatedConf.Delay
              else waitDomainNameUpdatedConf.MinTimeout)) :=
  ⟨(statusDomainName_spec (Except.error ApiError.notFoundException)).1
      (FindErr.notFoundError ApiError.notFoundException) rfl rfl,
   (statusDomainName_spec (Except.error (ApiError.other "throttled"))).2.1
      (FindErr.api "throttled") rfl rfl,
   (statusDomainName_spec (Except.ok (some sampleDomainName))).2.2.1
      sampleDomainName rfl,
   (statusDomainName_spec (Except.ok none)).2.2.2
      (fun _ => RefreshResult.retryEmpty) pollFuel 0 0 rfl (by decide)⟩

/-- C8: for an API object whose truststore URI and version are both present
and non-empty, flatten-then-expand reproduces an input with the same URI and
version; flatten maps a nil object to the nil (empty) list, and expand maps
an empty list or a nil first element to nil. -/
theorem mutualTLSAuthentication_roundTrip_spec :
    (∀ (a : MutualTlsAuthentication) (u w : String),
      a.TruststoreUri = some u → u ≠ "" →
      a.TruststoreVersion = some w → w ≠ "" →
      expandMutualTLSAuthentication (flattenMutualTLSAuthentication (some a)) =
        some { TruststoreUri := some u, TruststoreVersion := some w }) ∧
    flattenMutualTLSAuthentication none = [] ∧
    expandMutualTLSAuthentication [] = none ∧
    (∀ rest, expandMutualTLSAuthentication (none :: rest) = none) := by
  refine ⟨fun a u w hu hu0 hw hw0 => ?_, rfl, rfl, fun rest => rfl⟩
  simp [flattenMutualTLSAuthentication, expandMutualTLSAuthentication,
    hu, hw, hu0, hw0]

/-- Witness for C8: round trip at a concrete mutual-TLS object. -/
theorem mutualTLSAuthentication_roundTrip_witness :
    expandMutualTLSAuthentication (flattenMutualTLSAuthentication
      (some { TruststoreUri := some "s3://bucket/truststore.pem"
              TruststoreVersion := some "1" })) =
      some { TruststoreUri := some "s3://bucket/truststore.pem"
             TruststoreVersion := some "1" } :=
  mutualTLSAuthentication_roundTrip_spec.1
    { TruststoreUri := some "s3://bucket/truststore.pem"
      TruststoreVersion := some "1" }
    "s3://bucket/truststore.pem" "1" rfl (by decide) rfl (by decide)

end ApiGateway

namespace route53

/-- C9 (modelled; TrimTrailingPeriod itself is not under src/):
TrimTrailingPeriod is total; it strips exactly one trailing period from a
string longer than one character, keeps the one-character string `"."` and
every string without a trailing period unchanged, dereferences a non-nil
`*string`, and returns `""` for a nil `*string`, a non-string value, or
nil — and it satisfies every row of the `TestTrimTrailingPeriod` table. -/
theorem TrimTrailingPeriod_total_spec :
    (∀ s : String, s ≠ "." → s.data.getLast? = some '.' →
      TrimTrailingPeriod (.str s) = String.mk s.data.dropLast) ∧
    TrimTrailingPeriod (.str ".") = "." ∧
    (∀ s : String, s.data.getLast? ≠ some '.' →
      TrimTrailingPeriod (.str s) = s) ∧
    (∀ s : String, TrimTrailingPeriod (.strPtr (some s)) =
      TrimTrailingPeriod (.str s)) ∧
    TrimTrailingPeriod (.strPtr none) = "" ∧
    (∀ n : Int, TrimTrailingPeriod (.intVal n) = "") ∧
    TrimTrailingPeriod .nilVal = "" ∧
    TrimTrailingPeriod (.str "example.com") = "example.com" ∧
    TrimTrailingPeriod (.str "example.com.") = "example.com" ∧
    TrimTrailingPeriod (.str "www.example.com.") = "www.example.com" ∧
    TrimTrailingPeriod (.str "") = "" ∧
    TrimTrailingPeriod (.strPtr (some "example.com")) = "example.com" ∧
    TrimTrailingPeriod (.strPtr (some "example.com.")) = "example.com" := by
  refine ⟨fun s h1 h2 => ?_, by decide, fun s h => ?_, fun s => rfl,
    by decide, fun n => rfl, by decide, by decide, by decide, by decide,
    by decide, by decide, by decide⟩
  · simp [TrimTrailingPeriod, h1, h2]
  · have h1 : s ≠ "." := by
      intro he
      rw [he] at h
      exact h rfl
    simp [TrimTrailingPeriod, h1, h]

/-- Witness for C9: the general strip clause applied at a concrete string. -/
theorem TrimTrailingPeriod_total_witness :
    TrimTrailingPeriod (.str "www.example.com.") =
      String.mk ("www.example.com.").data.dropLast :=
  TrimTrailingPeriod_total_spec.1 "www.example.com." (by decide) (by decide)

/-- C3 counterexample: at 101 requested record changes the helper does not
split them into batches; it makes no ChangeResourceRecordSets call at all
and returns the single-batch-limit error. -/
theorem testAccCreateRandomRecordsInZoneID_101_counterexample :
    testAccCreateRandomRecordsInZoneID "example.com." 101 =
      .error "Route53 API only allows 100 record sets in a single batch" :=
  rfl

/-- C3 (amended): the helper never exceeds the per-call limit of 100 record
changes — a request of at most 100 changes yields exactly one
ChangeResourceRecordSets call carrying all of them, every batch of every
call it makes has at most 100 changes, and a request of more than 100
changes is rejected with an error instead of being split. -/
theorem testAccCreateRandomRecordsInZoneID_spec :
    ∀ (zoneName : String) (recordsCount : Nat),
      (recordsCount ≤ 100 →
        ∃ batch, testAccCreateRandomRecordsInZoneID zoneName recordsCount =
            .ok [batch] ∧
          batch.length = recordsCount ∧ batch.length ≤ 100) ∧
      (100 < recordsCount →
        testAccCreateRandomRecordsInZoneID zoneName recordsCount =
          .error "Route53 API only allows 100 record sets in a single batch") ∧
      (∀ batches,
        testAccCreateRandomRecordsInZoneID zoneName recordsCount =
          .ok batches →
        ∀ b ∈ batches, b.length ≤ 100) := by
  intro zoneName recordsCount
  refine ⟨fun hle => ?_, fun hgt => ?_, fun batches hok b hb => ?_⟩
  · have hgt : ¬ recordsCount > 100 := by omega
    refine ⟨(List.range recordsCount).map (fun i =>
      { Action := "UPSERT"
        Name := toString i ++ "-tf-acc-random." ++ zoneName
        RecordType := "CNAME"
        Value := "random." ++ zoneName
        TTL := 30 }), ?_, ?_, ?_⟩
    · simp [testAccCreateRandomRecordsInZoneID, hgt]
    · simp
    · simpa using hle
  · simp [testAccCreateRandomRecordsInZoneID, hgt]
  · by_cases hgt : recordsCount > 100
    · simp [testAccCreateRandomRecordsInZoneID, hgt] at hok
    · simp [testAccCreateRandomRecordsInZoneID, hgt] at hok
      subst hok
      simp at hb
      subst hb
      simp
      omega

/-- Witness for C3: concrete evaluations at 100 and 101 requested changes. -/
theorem testAccCreateRandomRecordsInZoneID_witness :
    (∃ batch,
      testAccCreateRandomRecordsInZoneID "example.com." 100 = .ok [batch] ∧
      batch.length = 100 ∧ batch.length ≤ 100) ∧
    testAccCreateRandomRecordsInZoneID "example.com." 105 =
      .error "Route53 API only allows 100 record sets in a single batch" :=
  ⟨(testAccCreateRandomRecordsInZoneID_spec "example.com." 100).1
      (by decide),
   (testAccCreateRandomRecordsInZoneID_spec "example.com." 105).2.1
      (by decide)⟩

end route53

namespace ApiGateway

/-- C7: on a successful CreateDomainName call the create handler sets the
resource id to the domain name of the API response and runs the read, so on
a successful read-back the stored attributes equal the remote
representation; on a failed call it returns the one diagnostic naming the
create operation and the domain name, leaving the id unchanged. -/
theorem resourceDomainNameCreate_spec :
    ∀ (d : CreateData) (meta : AWSClient) (conn : Conn) (st : ResourceState),
      (∀ e, conn.createDomainName (resourceDomainNameCreateInput d) =
          .error e →
        resourceDomainNameCreate d meta conn st =
          (st, ["creating API Gateway Domain Name (" ++ d.domain_name ++
                "): " ++ e.message]) ∧
        (resourceDomainNameCreate d meta conn st).1.id = st.id) ∧
      (∀ output,
        conn.createDomainName (resourceDomainNameCreateInput d) =
          .ok output →
        resourceDomainNameCreate d meta conn st =
          resourceDomainNameRead true meta
            (conn.getDomainName (output.DomainName.getD ""))
            { st with id := output.DomainName.getD "" } ∧
        (∀ dn,
          FindDomainName (conn.getDomainName (output.DomainName.getD "")) =
            .ok dn →
          (resourceDomainNameCreate d meta conn st).1.id =
            output.DomainName.getD "" ∧
          (resourceDomainNameCreate d meta conn st).1.domain_name =
            dn.DomainName ∧
          (resourceDomainNameCreate d meta conn st).1.certificate_arn =
            dn.CertificateArn ∧
          (resourceDomainNameCreate d meta conn st).1.regional_domain_name =
            dn.RegionalDomainName ∧
          (resourceDomainNameCreate d meta conn st).1.security_policy =
            dn.SecurityPolicy ∧
          (resourceDomainNameCreate d meta conn st).1.endpoint_configuration =
            flattenEndpointConfiguration dn.EndpointConfiguration ∧
          (resourceDomainNameCreate d meta conn
              st).1.mutual_tls_authentication =
            flattenMutualTLSAuthentication dn.MutualTlsAuthentication ∧
          (resourceDomainNameCreate d meta conn st).2 = [])) := by
  intro d meta conn st
  refine ⟨fun e he => ?_, fun output ho => ?_⟩
  · constructor <;> simp [resourceDomainNameCreate, he]
  · have hc : resourceDomainNameCreate d meta conn st =
        resourceDomainNameRead true meta
          (conn.getDomainName (output.DomainName.getD ""))
          { st with id := output.DomainName.getD "" } := by
      simp [resourceDomainNameCreate, ho]
    refine ⟨hc, fun dn hdn => ?_⟩
    rw [hc]
    simp [resourceDomainNameRead, hdn]

/-- Witness for C7: a concrete failed create and a concrete successful
create followed by a successful read-back. -/
theorem resourceDomainNameCreate_witness :
    (resourceDomainNameCreate sampleCreateData sampleMeta createErrConn
      sampleState).1.id = sampleState.id ∧
    (resourceDomainNameCreate sampleCreateData sampleMeta createOkConn
      sampleState).1.id = sampleDomainName.DomainName.getD "" ∧
    (resourceDomainNameCreate sampleCreateData sampleMeta createOkConn
      sampleState).1.domain_name = sampleDomainName.DomainName :=
  ⟨((resourceDomainNameCreate_spec sampleCreateData sampleMeta createErrConn
      sampleState).1 (ApiError.other "limit exceeded") rfl).2,
   (((resourceDomainNameCreate_spec sampleCreateData sampleMeta createOkConn
      sampleState).2 sampleDomainName rfl).2 sampleDomainName rfl).1,
   (((resourceDomainNameCreate_spec sampleCreateData sampleMeta createOkConn
      sampleState).2 sampleDomainName rfl).2 sampleDomainName rfl).2.1⟩

theorem pollAux_ne_fuelOut (conf : StateChangeConf)
    (refresh : Nat → RefreshResult) (hdel : conf.MinTimeout ≤ conf.Delay) :
    ∀ (fuel k elapsed : Nat),
      conf.Timeout ≤ elapsed + conf.MinTimeout * fuel →
      pollAux conf refresh fuel k elapsed ≠ .fuelOut := by
  intro fuel
  induction fuel with
  | zero =>
    intro k elapsed h
    unfold pollAux
    rw [if_pos (by simpa using h)]
    simp
  | succ n ih =>
    intro k elapsed h
    rw [Nat.mul_succ] at h
    by_cases ht : conf.Timeout ≤ elapsed
    · simp [pollAux, ht]
    · have hw : conf.MinTimeout ≤
          (if k = 0 then conf.Delay else conf.MinTimeout) := by
        by_cases hk : k = 0 <;> simp [hk, hdel]
      simp only [pollAux, if_neg ht]
      cases hr : refresh k with
      | retryEmpty =>
        simp only []
        exact ih (k + 1) _ (by omega)
      | failed msg => simp
      | found output status =>
        by_cases hst : status ∈ conf.Target
        · simp [hst]
        · by_cases hsp : status ∈ conf.Pending
          · simp only [if_neg hst, if_pos hsp]
            exact ih (k + 1) _ (by omega)
          · simp [hst, hsp]

theorem pollAux_pending_timedOut (refresh : Nat → RefreshResult)
    (hall : ∀ j, keepsPolling (refresh j) = true) :
    ∀ (fuel k elapsed : Nat),
      waitDomainNameUpdatedConf.Timeout ≤
        elapsed + waitDomainNameUpdatedConf.MinTimeout * fuel →
      pollAux waitDomainNameUpdatedConf refresh fuel k elapsed = .timedOut := by
  intro fuel
  induction fuel with
  | zero =>
    intro k elapsed h
    unfold pollAux
    rw [if_pos (by simpa using h)]
  | succ n ih =>
    intro k elapsed h
    rw [Nat.mul_succ] at h
    by_cases ht : waitDomainNameUpdatedConf.Timeout ≤ elapsed
    · simp [pollAux, ht]
    · have hk := hall k
      have hw : waitDomainNameUpdatedConf.MinTimeout ≤
          (if k = 0 then waitDomainNameUpdatedConf.Delay
           else waitDomainNameUpdatedConf.MinTimeout) := by
        by_cases hk0 : k = 0 <;> simp [hk0, waitDomainNameUpdatedConf]
      cases hr : refresh k with
      | retryEmpty =>
        simp only [pollAux, if_neg ht, hr]
        exact ih (k + 1) _ (by omega)
      | failed msg => simp [keepsPolling, hr] at hk
      | found output status =>
        rw [hr] at hk
        simp only [keepsPolling, beq_iff_eq] at hk
        subst hk
        have hst : DomainNameStatusUpdating ∉
            waitDomainNameUpdatedConf.Target := by
          simp [waitDomainNameUpdatedConf, DomainNameStatusUpdating,
            DomainNameStatusAvailable]
        have hsp : DomainNameStatusUpdating ∈
            waitDomainNameUpdatedConf.Pending := by
          simp [waitDomainNameUpdatedConf]
        simp only [pollAux, if_neg ht, hr, if_neg hst, if_pos hsp]
        exact ih (k + 1) _ (by omega)

theorem pollAux_found_step (conf : StateChangeConf)
    (refresh : Nat → RefreshResult) (fuel k elapsed : Nat)
    (output : DomainName) (status : String)
    (ht : ¬ conf.Timeout ≤ elapsed) (hr : refresh k = .found output status)
    (hs : status ∈ conf.Target) :
    pollAux conf refresh (fuel + 1) k elapsed = .found output := by
  simp [pollAux, ht, hr, hs]

theorem pollAux_keepsPolling_step (refresh : Nat → RefreshResult)
    (fuel k elapsed : Nat) (ht : elapsed < waitDomainNameUpdatedConf.Timeout)
    (hr : keepsPolling (refresh k) = true) :
    pollAux waitDomainNameUpdatedConf refresh (fuel + 1) k elapsed =
      pollAux waitDomainNameUpdatedConf refresh fuel (k + 1)
        (elapsed + (if k = 0 then waitDomainNameUpdatedConf.Delay
                    else waitDomainNameUpdatedConf.MinTimeout)) := by
  have ht' : ¬ waitDomainNameUpdatedConf.Timeout ≤ elapsed := by omega
  cases hrr : refresh k with
  | retryEmpty => simp only [pollAux, if_neg ht', hrr]
  | failed msg => simp [keepsPolling, hrr] at hr
  | found output status =>
    rw [hrr] at hr
    simp only [keepsPolling, beq_iff_eq] at hr
    subst hr
    have hst : DomainNameStatusUpdating ∉ waitDomainNameUpdatedConf.Target := by
      simp [waitDomainNameUpdatedConf, DomainNameStatusUpdating,
        DomainNameStatusAvailable]
    have hsp : DomainNameStatusUpdating ∈ waitDomainNameUpdatedConf.Pending := by
      simp [waitDomainNameUpdatedConf]
    simp only [pollAux, if_neg ht', hrr, if_neg hst, if_pos hsp]

/-- C4: the update-wait poller is configured with a 1-minute delay, a
10-second minimum timeout and a 15-minute maximum timeout; it returns the
domain name object when the status reaches AVAILABLE, keeps polling while
the status is UPDATING (or the lookup is transiently not found) and then
terminates with a timeout error — and the poll loop always terminates
within its time budget (the fuel bound is never hit). -/
theorem waitDomainNameUpdated_spec :
    waitDomainNameUpdatedConf.Delay = 60 ∧
    waitDomainNameUpdatedConf.MinTimeout = 10 ∧
    waitDomainNameUpdatedConf.Timeout = 15 * 60 ∧
    waitDomainNameUpdatedConf.Pending = [DomainNameStatusUpdating] ∧
    waitDomainNameUpdatedConf.Target = [DomainNameStatusAvailable] ∧
    (∀ (seq : Nat → Except ApiError (Option DomainName)) output,
      statusDomainName (seq 0) =
        RefreshResult.found output DomainNameStatusAvailable →
      waitDomainNameUpdated seq = WaitOutcome.found output) ∧
    (∀ (seq : Nat → Except ApiError (Option DomainName)) output,
      keepsPolling (statusDomainName (seq 0)) = true →
      statusDomainName (seq 1) =
        RefreshResult.found output DomainNameStatusAvailable →
      waitDomainNameUpdated seq = WaitOutcome.found output) ∧
    (∀ (seq : Nat → Except ApiError (Option DomainName)),
      (∀ k, keepsPolling (statusDomainName (seq k)) = true) →
      waitDomainNameUpdated seq = WaitOutcome.timedOut) ∧
    (∀ (seq : Nat → Except ApiError (Option DomainName)),
      waitDomainNameUpdated seq ≠ WaitOutcome.fuelOut) := by
  refine ⟨rfl, rfl, rfl, rfl, rfl, fun seq output h0 => ?_,
    fun seq output h0 h1 => ?_, fun seq hall => ?_, fun seq => ?_⟩
  · exact pollAux_found_step waitDomainNameUpdatedConf
      (fun k => statusDomainName (seq k)) 99 0 0 output
      DomainNameStatusAvailable (by simp [waitDomainNameUpdatedConf]) h0
      (by simp [waitDomainNameUpdatedConf])
  · have hstep := pollAux_keepsPolling_step
      (fun k => statusDomainName (seq k)) 99 0 0
      (by simp [waitDomainNameUpdatedConf]) h0
    rw [waitDomainNameUpdated, pollFuel]
    rw [hstep]
    exact pollAux_found_step waitDomainNameUpdatedConf
      (fun k => statusDomainName (seq k)) 98 1 _ output
      DomainNameStatusAvailable (by simp [waitDomainNameUpdatedConf]) h1
      (by simp [waitDomainNameUpdatedConf])
  · exact pollAux_pending_timedOut (fun k => statusDomainName (seq k))
      (fun k => hall k) pollFuel 0 0 (by simp [waitDomainNameUpdatedConf, pollFuel])
  · exact pollAux_ne_fuelOut waitDomainNameUpdatedConf
      (fun k => statusDomainName (seq k)) (by simp [waitDomainNameUpdatedConf])
      pollFuel 0 0 (by simp [waitDomainNameUpdatedConf, pollFuel])

/-- Witness for C4: concrete poll sequences — immediately AVAILABLE, one
UPDATING step then AVAILABLE, and never leaving UPDATING. -/
theorem waitDomainNameUpdated_witness :
    waitDomainNameUpdated (fun _ => .ok (some sampleDomainName)) =
      WaitOutcome.found sampleDomainName ∧
    waitDomainNameUpdated (fun k =>
        if k = 0 then .ok (some updatingDomainName)
        else .ok (some sampleDomainName)) =
      WaitOutcome.found sampleDomainName ∧
    waitDomainNameUpdated (fun _ => .ok (some updatingDomainName)) =
      WaitOutcome.timedOut ∧
    waitDomainNameUpdated (fun _ => .ok (some updatingDomainName)) ≠
      WaitOutcome.fuelOut :=
  ⟨waitDomainNameUpdated_spec.2.2.2.2.2.1 (fun _ => .ok (some sampleDomainName))
      sampleDomainName rfl,
   waitDomainNameUpdated_spec.2.2.2.2.2.2.1 (fun k =>
        if k = 0 then .ok (some updatingDomainName)
        else .ok (some sampleDomainName)) sampleDomainName rfl rfl,
   waitDomainNameUpdated_spec.2.2.2.2.2.2.2.1
      (fun _ => .ok (some updatingDomainName)) (fun _ => rfl),
   waitDomainNameUpdated_spec.2.2.2.2.2.2.2.2
      (fun _ => .ok (some updatingDomainName))⟩

theorem countP_ite_singleton (p : PatchOperation → Bool) (b : Bool)
    (x : PatchOperation) :
    List.countP p (if b = true then [x] else []) =
      if b = true then (if p x then 1 else 0) else 0 := by
  cases b <;> simp [List.countP_cons]

theorem length_ite_singleton (b : Bool) (x : PatchOperation) :
    (if b = true then [x] else []).length = if b = true then 1 else 0 := by
  cases b <;> simp

theorem updateOperations_allReplace (d : UpdateData) :
    ∀ op ∈ resourceDomainNameUpdateOperations d, op.Op = OpReplace := by
  intro op hop
  simp only [resourceDomainNameUpdateOperations, List.mem_append] at hop
  rcases hop with ((((((h | h) | h) | h) | h) | h) | h) <;>
    (repeat' split at h) <;> simp_all <;>
    rcases h with rfl | rfl <;> simp

/-- C6: an update where only `tags` / `tags_all` changed makes no
UpdateDomainName call and never enters the wait loop; otherwise the patch
list holds exactly one replace operation per changed attribute among
certificate_arn, certificate_name, endpoint-configuration types, the
mutual-TLS truststore fields, regional_certificate_arn,
regional_certificate_name and security_policy (under the schema-implied
side conditions: a changed endpoint block is present, a changed mutual-TLS
block is present and a changed mutual-TLS field marks its block changed),
and on a successful patch the handler waits for the update and finishes
with the read, so the state is the read-back state. -/
theorem resourceDomainNameUpdate_frame_spec :
    ∀ (d : UpdateData) (meta : AWSClient) (conn : Conn)
      (seq : Nat → Except ApiError (Option DomainName)) (st : ResourceState),
      (d.HasChangesExcept ["tags", "tags_all"] = false →
        (resourceDomainNameUpdate d meta conn seq st).updateCalled = none ∧
        (resourceDomainNameUpdate d meta conn seq st).waited = false) ∧
      ((d.HasChange "endpoint_configuration.0.types" = true →
          d.endpoint_configuration ≠ []) →
       (d.HasChange "mutual_tls_authentication" = true →
          ∃ m rest, d.mutual_tls_authentication = some m :: rest) →
       ((d.HasChange "mutual_tls_authentication.0.truststore_uri" = true ∨
         d.HasChange "mutual_tls_authentication.0.truststore_version" = true) →
          d.HasChange "mutual_tls_authentication" = true) →
        (∀ op ∈ resourceDomainNameUpdateOperations d, op.Op = OpReplace) ∧
        (resourceDomainNameUpdateOperations d).countP
            (fun op => op.Path = "/certificateArn") =
          (if d.HasChange "certificate_arn" then 1 else 0) ∧
        (resourceDomainNameUpdateOperations d).countP
            (fun op => op.Path = "/certificateName") =
          (if d.HasChange "certificate_name" then 1 else 0) ∧
        (resourceDomainNameUpdateOperations d).countP
            (fun op => op.Path = "/endpointConfiguration/types/0") =
          (if d.HasChange "endpoint_configuration.0.types" then 1 else 0) ∧
        (resourceDomainNameUpdateOperations d).countP
            (fun op => op.Path = "/mutualTlsAuthentication/truststoreUri") =
          (if d.HasChange "mutual_tls_authentication.0.truststore_uri"
           then 1 else 0) ∧
        (resourceDomainNameUpdateOperations d).countP
            (fun op =>
              op.Path = "/mutualTlsAuthentication/truststoreVersion") =
          (if d.HasChange "mutual_tls_authentication.0.truststore_version"
           then 1 else 0) ∧
        (resourceDomainNameUpdateOperations d).countP
            (fun op => op.Path = "/regionalCertificateArn") =
          (if d.HasChange "regional_certificate_arn" then 1 else 0) ∧
        (resourceDomainNameUpdateOperations d).countP
            (fun op => op.Path = "/regionalCertificateName") =
          (if d.HasChange "regional_certificate_name" then 1 else 0) ∧
        (resourceDomainNameUpdateOperations d).countP
            (fun op => op.Path = "/securityPolicy") =
          (if d.HasChange "security_policy" then 1 else 0) ∧
        (resourceDomainNameUpdateOperations d).length =
          (if d.HasChange "certificate_arn" then 1 else 0) +
          (if d.HasChange "certificate_name" then 1 else 0) +
          (if d.HasChange "endpoint_configuration.0.types" then 1 else 0) +
          (if d.HasChange "mutual_tls_authentication.0.truststore_uri"
           then 1 else 0) +
          (if d.HasChange "mutual_tls_authentication.0.truststore_version"
           then 1 else 0) +
          (if d.HasChange "regional_certificate_arn" then 1 else 0) +
          (if d.HasChange "regional_certificate_name" then 1 else 0) +
          (if d.HasChange "security_policy" then 1 else 0)) ∧
      (d.HasChangesExcept ["tags", "tags_all"] = true →
        conn.updateDomainName d.id (resourceDomainNameUpdateOperations d) =
          .ok () →
        (waitDomainNameUpdated seq).isErr = false →
        (resourceDomainNameUpdate d meta conn seq st).updateCalled =
          some (resourceDomainNameUpdateOperations d) ∧
        (resourceDomainNameUpdate d meta conn seq st).waited = true ∧
        (resourceDomainNameUpdate d meta conn seq st).state =
          (resourceDomainNameRead false meta (conn.getDomainName d.id)
            st).1) := by
  intro d meta conn seq st
  refine ⟨fun h => ?_, fun hep hm hsub => ?_, fun h hupd hw => ?_⟩
  · constructor <;> simp [resourceDomainNameUpdate, h]
  · cases hbm : d.HasChange "mutual_tls_authentication" with
    | false =>
      have hbu : d.HasChange "mutual_tls_authentication.0.truststore_uri" =
          false := by
        cases hx : d.HasChange "mutual_tls_authentication.0.truststore_uri"
        · rfl
        · rw [hsub (Or.inl hx)] at hbm
          exact absurd hbm (by simp)
      have hbv :
          d.HasChange "mutual_tls_authentication.0.truststore_version" =
            false := by
        cases hx : d.HasChange "mutual_tls_authentication.0.truststore_version"
        · rfl
        · rw [hsub (Or.inr hx)] at hbm
          exact absurd hbm (by simp)
      cases hb3 : d.HasChange "endpoint_configuration.0.types" with
      | false =>
        refine ⟨updateOperations_allReplace d,
          ?_, ?_, ?_, ?_, ?_, ?_, ?_, ?_, ?_⟩
        all_goals
          simp [resourceDomainNameUpdateOperations, hbm, hbu, hbv, hb3,
            countP_ite_singleton, length_ite_singleton, List.countP_append,
            List.length_append]
        all_goals ring
      | true =>
        have hne := hep hb3
        cases hepc : d.endpoint_configuration with
        | nil => exact absurd hepc hne
        | cons em erest =>
          refine ⟨updateOperations_allReplace d,
            ?_, ?_, ?_, ?_, ?_, ?_, ?_, ?_, ?_⟩
          all_goals
            simp [resourceDomainNameUpdateOperations, hbm, hbu, hbv, hb3,
              hepc, countP_ite_singleton, length_ite_singleton,
              List.countP_append, List.length_append]
          all_goals ring
    | true =>
      obtain ⟨m, rest, hml⟩ := hm hbm
      cases hb3 : d.HasChange "endpoint_configuration.0.types" with
      | false =>
        refine ⟨updateOperations_allReplace d,
          ?_, ?_, ?_, ?_, ?_, ?_, ?_, ?_, ?_⟩
        all_goals
          simp [resourceDomainNameUpdateOperations, hbm, hml, hb3,
            countP_ite_singleton, length_ite_singleton, List.countP_append,
            List.length_append]
        all_goals ring
      | true =>
        have hne := hep hb3
        cases hepc : d.endpoint_configuration with
        | nil => exact absurd hepc hne
        | cons em erest =>
          refine ⟨updateOperations_allReplace d,
            ?_, ?_, ?_, ?_, ?_, ?_, ?_, ?_, ?_⟩
          all_goals
            simp [resourceDomainNameUpdateOperations, hbm, hml, hb3, hepc,
              countP_ite_singleton, length_ite_singleton, List.countP_append,
              List.length_append]
          all_goals ring
  · refine ⟨?_, ?_, ?_⟩ <;>
      simp [resourceDomainNameUpdate, h, hupd, hw]

/-- Witness for C6: a tags-only update makes no API call; an update of the
certificate ARN and the security policy emits exactly two operations and
enters the wait loop. -/
theorem resourceDomainNameUpdate_frame_witness :
    (resourceDomainNameUpdate dTagsOnly sampleMeta createOkConn
        (fun _ => .ok (some sampleDomainName)) sampleState).updateCalled =
      none ∧
    (resourceDomainNameUpdateOperations dCertSec).length = 2 ∧
    (resourceDomainNameUpdate dCertSec sampleMeta createOkConn
        (fun _ => .ok (some sampleDomainName)) sampleState).waited = true := by
  refine ⟨((resourceDomainNameUpdate_frame_spec dTagsOnly sampleMeta
    createOkConn (fun _ => .ok (some sampleDomainName)) sampleState).1
    (by decide)).1, ?_, ?_⟩
  · have h := ((resourceDomainNameUpdate_frame_spec dCertSec sampleMeta
      createOkConn (fun _ => .ok (some sampleDomainName)) sampleState).2.1
      (fun hx => absurd hx (by decide))
      (fun hx => absurd hx (by decide))
      (fun hx => absurd hx (by decide))).2.2.2.2.2.2.2.2.2
    simpa [dCertSec, UpdateData.HasChange] using h
  · exact ((resourceDomainNameUpdate_frame_spec dCertSec sampleMeta
      createOkConn (fun _ => .ok (some sampleDomainName)) sampleState).2.2
      (by decide) rfl rfl).2.1

/-- C10: when the endpoint-configuration types changed but the new
configuration list is empty (the block is being removed), the update emits
no patch operation for the endpoint configuration. -/
theorem resourceDomainNameUpdate_endpointRemoval_spec :
    ∀ (d : UpdateData),
      d.HasChange "endpoint_configuration.0.types" = true →
      d.endpoint_configuration = [] →
      (resourceDomainNameUpdateOperations d).countP
        (fun op => op.Path = "/endpointConfiguration/types/0") = 0 := by
  intro d hch hep
  rw [List.countP_eq_zero]
  intro op hop
  simp only [resourceDomainNameUpdateOperations, hch, hep,
    List.mem_append, if_true] at hop
  rcases hop with ((((((h | h) | h) | h) | h) | h) | h) <;>
    (repeat' split at h) <;> simp_all <;>
    rcases h with rfl | rfl <;> simp

/-- Witness for C10: a concrete update that removes the endpoint block. -/
theorem resourceDomainNameUpdate_endpointRemoval_witness :
    (resourceDomainNameUpdateOperations
      { id := "example.com"
        changedKeys := ["endpoint_configuration",
                        "endpoint_configuration.0.types"]
        certificate_arn := "", certificate_name := ""
        endpoint_configuration := [], mutual_tls_authentication := []
        regional_certificate_arn := "", regional_certificate_name := ""
        security_policy := "" }).countP
      (fun op => op.Path = "/endpointConfiguration/types/0") = 0 :=
  resourceDomainNameUpdate_endpointRemoval_spec
    { id := "example.com"
      changedKeys := ["endpoint_configuration",
                      "endpoint_configuration.0.types"]
      certificate_arn := "", certificate_name := ""
      endpoint_configuration := [], mutual_tls_authentication := []
      regional_certificate_arn := "", regional_certificate_name := ""
      security_policy := "" } (by decide) rfl

end ApiGateway

